import Mathlib

/-!
Verification of the metadata reconciliation and template-mapping logic of the
psr-templates repository.

The first part embeds `src/psr_prepare/addon.py`: the requirement merge
(`reconcile_requires`), the addon.xml / pyproject.toml reconciliation
(`reconcile_addon`), and the raw XML fragment carry-through
(`AddonXmlData.get_unknown_extensions_xml`).  Python dictionaries are embedded
as association lists with insertion-order update semantics; `raise ValueError`
becomes `Except.error`; Python string truthiness becomes a non-emptiness test.

The second part embeds `src/arranger/run.py`: configuration validation and the
`build_mappings` pipeline.
-/

set_option maxHeartbeats 1600000

namespace PsrTemplates

/-- A requirement entry, embedding the Python dicts of shape
`\x7b"addon": ..., "version": ...\x7d`.  A missing or `None` `addon` key and an
empty string behave identically under Python truthiness, so both are embedded
as `""`; a missing `version` key is read with default `""` in the source. -/
structure Require where
  addon : String
  version : String
deriving DecidableEq, Repr

/-- A Python `dict[str, str]` embedded as an association list in insertion
order, with at most one entry per key. -/
abbrev ReqDict := List (String × String)

/-- `k in d` for the embedded dict. -/
def dictMem (d : ReqDict) (k : String) : Bool :=
  d.any (fun p => p.1 == k)

/-- `d[k]` for the embedded dict (the source only reads keys it has checked
are present; absent keys give `""` here). -/
def dictGet (d : ReqDict) (k : String) : String :=
  ((d.find? (fun p => p.1 == k)).map Prod.snd).getD ""

/-- `d[k] = v` for the embedded dict: update in place if the key is present,
else append, exactly like insertion into a Python dict. -/
def dictSet (d : ReqDict) (k v : String) : ReqDict :=
  if dictMem d k then d.map (fun p => if p.1 == k then (k, v) else p)
  else d ++ [(k, v)]

/-- Python `max(a, b)` on strings: returns `b` exactly when `a < b`
(lexicographic comparison of code points, which is also what the Lean
`String` order compares). -/
def pymaxS (a b : String) : String :=
  if a < b then b else a

/-- Error message raised by `reconcile_requires` in strict mode. -/
def depConflictMsg (addon xmlv cfgv : String) : String :=
  "addon " ++ addon ++ ": version conflict - xml=" ++ xmlv ++ " vs config=" ++ cfgv

/-- Warning message emitted by `reconcile_requires` in lenient mode. -/
def depWarnMsg (addon xmlv cfgv higher : String) : String :=
  "addon " ++ addon ++ ": versions differ (xml=" ++ xmlv ++ ", config=" ++ cfgv
    ++ "), using " ++ higher

/-- First loop of `reconcile_requires`: seed the dict from the addon.xml
requirement list, skipping entries with a falsy addon id. -/
def loadXmlRequires (xml : List Require) : ReqDict :=
  xml.foldl (fun d r => if r.addon ≠ "" then dictSet d r.addon r.version else d) []

/-- One iteration of the second loop of `reconcile_requires`, overlaying a
config requirement onto the dict built so far, threading the warning list. -/
def overlayStep (strict : Bool) (st : ReqDict × List String) (r : Require) :
    Except String (ReqDict × List String) :=
  if r.addon = "" then .ok st
  else if dictMem st.1 r.addon then
    if dictGet st.1 r.addon ≠ r.version then
      if strict then
        .error (depConflictMsg r.addon (dictGet st.1 r.addon) r.version)
      else
        .ok (dictSet st.1 r.addon (pymaxS (dictGet st.1 r.addon) r.version),
             st.2 ++ [depWarnMsg r.addon (dictGet st.1 r.addon) r.version
                        (pymaxS (dictGet st.1 r.addon) r.version)])
    else .ok st
  else .ok (dictSet st.1 r.addon r.version, st.2)

/-- Comparison used to embed `sorted(requires_dict.items())`.  Python sorts
the `(key, value)` tuples lexicographically; because dict keys are unique the
key comparison alone already decides the order. -/
def pairLe (a b : String × String) : Bool :=
  decide (a.1 ≤ b.1)

/-- `reconcile_requires` from `src/psr_prepare/addon.py`: merge requires from
addon.xml and config, choosing the higher version string on conflict in
lenient mode and failing in strict mode. -/
def reconcile_requires (xml config : List Require) (strict : Bool) :
    Except String (List Require × List String) := do
  let st ← config.foldlM (overlayStep strict) (loadXmlRequires xml, [])
  .ok ((st.1.mergeSort pairLe).map (fun p => Require.mk p.1 p.2), st.2)

/-- An `xml.etree.ElementTree` element: tag, attributes in document order,
leading text, child elements, and trailing tail text. -/
inductive Elem where
  | elem (tag : String) (attrs : List (String × String)) (text : Option String)
      (children : List Elem) (tail : Option String)

def Elem.tag : Elem → String
  | .elem t _ _ _ _ => t

def Elem.attrs : Elem → List (String × String)
  | .elem _ a _ _ _ => a

def Elem.text : Elem → Option String
  | .elem _ _ t _ _ => t

def Elem.children : Elem → List Elem
  | .elem _ _ _ c _ => c

def Elem.tail : Elem → Option String
  | .elem _ _ _ _ t => t

/-- `element.get(key)`: attribute lookup. -/
def Elem.get (e : Elem) (k : String) : Option String :=
  (e.attrs.find? (fun p => p.1 == k)).map Prod.snd

/-- Attribute serialization, in document order. -/
def serializeAttrs (attrs : List (String × String)) : String :=
  attrs.foldl (fun acc p => acc ++ " " ++ p.1 ++ "=\x22" ++ p.2 ++ "\x22") ""

/-- `ET.tostring(e, encoding="unicode")`: elements with neither text nor
children are self-closed; the element tail is included. -/
def Elem.tostring : Elem → String
  | .elem tag attrs text children tail =>
    if (text.getD "" != "") || !children.isEmpty then
      "<" ++ tag ++ serializeAttrs attrs ++ ">" ++ text.getD ""
        ++ String.join (children.attach.map (fun c => Elem.tostring c.1))
        ++ "</" ++ tag ++ ">" ++ tail.getD ""
    else
      "<" ++ tag ++ serializeAttrs attrs ++ " />" ++ tail.getD ""
decreasing_by
  have := List.sizeOf_lt_of_mem c.2
  simp only [Elem.elem.sizeOf_spec]
  omega

/-- Parsed data from addon.xml (`AddonXmlData` in `src/psr_prepare/addon.py`). -/
structure AddonXmlData where
  id : Option String := none
  version : Option String := none
  name : Option String := none
  provider_name : Option String := none
  summary : Option String := none
  description : Option String := none
  disclaimer : Option String := none
  license : Option String := none
  source : Option String := none
  assets : List (String × String) := []
  requires : List Require := []
  news : Option String := none
  root : Option Elem := none

/-- Python truthiness for `Optional[str]`: `None` and `""` are falsy. -/
def truthy : Option String → Bool
  | some s => s ≠ ""
  | none => false

/-- `AddonXmlData.get_unknown_extensions_xml`: serialize the `extension`
children of the root whose `point` attribute is truthy and is not
`xbmc.addon.metadata`, concatenated in document order.  Note `if not
self.root:` tests Python element truthiness, which is false for an element
with no children, so a childless root also yields `""`.  `unknownStep` is one
iteration of its serialization loop. -/
def unknownStep (acc : List String) (ext : Elem) : List String :=
  match ext.get "point" with
  | some p =>
    if p ≠ "" ∧ p ≠ "xbmc.addon.metadata" then acc ++ [ext.tostring] else acc
  | none => acc

def AddonXmlData.get_unknown_extensions_xml (d : AddonXmlData) : String :=
  match d.root with
  | none => ""
  | some root =>
    if root.children.isEmpty then ""
    else
      String.join ((root.children.filter (fun e => e.tag == "extension")).foldl
        unknownStep [])

/-- A value stored in the merged addon dictionary: an optional string, an
asset map, or a requirement list. -/
inductive Value where
  | vstr (s : Option String)
  | vassets (m : List (String × String))
  | vreqs (l : List Require)
deriving DecidableEq, Repr

/-- `AddonXmlData.to_dict`, keys in source order. -/
def AddonXmlData.to_dict (d : AddonXmlData) : List (String × Value) :=
  [("id", .vstr d.id), ("version", .vstr d.version), ("name", .vstr d.name),
   ("provider-name", .vstr d.provider_name), ("summary", .vstr d.summary),
   ("description", .vstr d.description), ("disclaimer", .vstr d.disclaimer),
   ("license", .vstr d.license), ("source", .vstr d.source),
   ("assets", .vassets d.assets), ("requires", .vreqs d.requires),
   ("news", .vstr d.news)]

/-- Addon configuration from `[tool.psr-prepare.addon]`
(`AddonConfig` in `src/psr_prepare/config.py`); `id` defaults to `""`,
the other declarable fields to `None`. -/
structure AddonConfig where
  id : String := ""
  name : Option String := none
  provider_name : Option String := none
  description : Option String := none
  summary : Option String := none
  license : Option String := none
  disclaimer : Option String := none
  source : Option String := none
  assets : List (String × String) := []
  requires : List Require := []

/-- The fields checked for conflicts by `reconcile_addon`, in loop order. -/
def checkedFields : List String := ["id", "name", "provider-name", "description"]

/-- `getattr(xml_data, field.replace("-", "_"), None)` for the checked fields. -/
def xmlField (d : AddonXmlData) : String → Option String
  | "id" => d.id
  | "name" => d.name
  | "provider-name" => d.provider_name
  | "description" => d.description
  | _ => none

/-- `getattr(config, field.replace("-", "_"), None)` for the checked fields
(`config.id` is a plain string, hence always present). -/
def cfgField (c : AddonConfig) : String → Option String
  | "id" => some c.id
  | "name" => c.name
  | "provider-name" => c.provider_name
  | "description" => c.description
  | _ => none

/-- Strict-mode error message for a conflicting declarable field. -/
def fieldConflictMsg (field xv cv : String) : String :=
  "addon." ++ field ++ ": conflict between xml=\x27" ++ xv ++ "\x27 and config=\x27"
    ++ cv ++ "\x27"

/-- Lenient-mode warning message for a conflicting declarable field. -/
def fieldWarnMsg (field xv cv : String) : String :=
  "addon." ++ field ++ ": xml=\x27" ++ xv ++ "\x27 overridden by config=\x27"
    ++ cv ++ "\x27"

/-- One iteration of the conflict-checking loop of `reconcile_addon`. -/
def checkFieldsStep (d : AddonXmlData) (c : AddonConfig) (strict : Bool)
    (ws : List String) (f : String) : Except String (List String) :=
  if truthy (xmlField d f) ∧ truthy (cfgField c f) ∧ xmlField d f ≠ cfgField c f then
    if strict then
      .error (fieldConflictMsg f ((xmlField d f).getD "") ((cfgField c f).getD ""))
    else .ok (ws ++ [fieldWarnMsg f ((xmlField d f).getD "") ((cfgField c f).getD "")])
  else .ok ws

/-- `reconcile_addon` from `src/psr_prepare/addon.py`: reconcile addon.xml
and config, with config winning for simple fields.  The returned Python dict
is embedded as an association list in insertion order. -/
def reconcile_addon (xml_data : Option AddonXmlData) (config : Option AddonConfig)
    (strict : Bool) : Except String (List (String × Value) × List String) :=
  match config with
  | none =>
    match xml_data with
    | some d => .ok (d.to_dict, [])
    | none => .ok ([], [])
  | some c => do
    let fieldWarnings ←
      match xml_data with
      | some d => checkedFields.foldlM (checkFieldsStep d c strict) []
      | none => .ok ([] : List String)
    let xmlReqs := match xml_data with
      | some d => d.requires
      | none => []
    let (mergedReqs, reqWarnings) ← reconcile_requires xmlReqs c.requires strict
    let news : String := match xml_data with
      | some d => if truthy d.news then d.news.getD "" else ""
      | none => ""
    let unknown : String := match xml_data with
      | some d => d.get_unknown_extensions_xml
      | none => ""
    .ok ([("id", .vstr (some c.id)), ("name", .vstr c.name),
          ("provider-name", .vstr c.provider_name),
          ("description", .vstr c.description), ("summary", .vstr c.summary),
          ("license", .vstr c.license), ("disclaimer", .vstr c.disclaimer),
          ("source", .vstr c.source), ("assets", .vassets c.assets),
          ("requires", .vreqs mergedReqs), ("news", .vstr (some news)),
          ("unknown_extensions", .vstr (some unknown))],
         fieldWarnings ++ reqWarnings)

/-! Lemmas about the embedded dict and the requirement merge. -/

theorem overlayStep_strict_ok {st st' : ReqDict × List String} {r : Require}
    (h : overlayStep true st r = .ok st') : st'.2 = st.2 := by
  unfold overlayStep at h
  by_cases h1 : r.addon = ""
  · rw [if_pos h1] at h
    injection h with h
    subst h; rfl
  rw [if_neg h1] at h
  by_cases h2 : dictMem st.1 r.addon = true
  · rw [if_pos h2] at h
    by_cases h3 : dictGet st.1 r.addon ≠ r.version
    · rw [if_pos h3] at h
      simp at h
    · rw [if_neg h3] at h
      injection h with h
      subst h; rfl
  · rw [if_neg h2] at h
    injection h with h
    subst h; rfl

theorem overlay_foldlM_strict_warnings :
    ∀ (l : List Require) (st : ReqDict × List String) (st' : ReqDict × List String),
      l.foldlM (overlayStep true) st = .ok st' → st'.2 = st.2
  | [], st, st', h => by
    simp only [List.foldlM_nil, pure] at h
    cases h; rfl
  | r :: rest, st, st', h => by
    simp only [List.foldlM_cons] at h
    cases hstep : overlayStep true st r with
    | error e => rw [hstep] at h; simp [Bind.bind, Except.bind] at h
    | ok mid =>
      rw [hstep] at h
      simp only [Bind.bind, Except.bind] at h
      have := overlay_foldlM_strict_warnings rest mid st' h
      rw [this, overlayStep_strict_ok hstep]

theorem reconcile_requires_strict_no_warnings (xml config : List Require)
    (merged : List Require) (w : List String)
    (h : reconcile_requires xml config true = .ok (merged, w)) : w = [] := by
  unfold reconcile_requires at h
  cases hf : config.foldlM (overlayStep true) (loadXmlRequires xml, []) with
  | error e => rw [hf] at h; simp [Bind.bind, Except.bind] at h
  | ok st =>
    rw [hf] at h
    simp only [Bind.bind, Except.bind, Except.ok.injEq, Prod.mk.injEq] at h
    rw [← h.2]
    exact overlay_foldlM_strict_warnings config _ st hf

theorem checkFieldsStep_strict_ok {d : AddonXmlData} {c : AddonConfig}
    {ws ws' : List String} {f : String}
    (h : checkFieldsStep d c true ws f = .ok ws') : ws' = ws := by
  unfold checkFieldsStep at h
  by_cases hc : truthy (xmlField d f) = true ∧ truthy (cfgField c f) = true
      ∧ xmlField d f ≠ cfgField c f
  · rw [if_pos hc] at h
    simp at h
  · rw [if_neg hc] at h
    injection h with h
    subst h; rfl

theorem checkFields_foldlM_strict (d : AddonXmlData) (c : AddonConfig) :
    ∀ (fs : List String) (ws ws' : List String),
      fs.foldlM (checkFieldsStep d c true) ws = .ok ws' → ws' = ws
  | [], ws, ws', h => by
    simp only [List.foldlM_nil, pure] at h
    cases h; rfl
  | f :: rest, ws, ws', h => by
    simp only [List.foldlM_cons] at h
    cases hstep : checkFieldsStep d c true ws f with
    | error e => rw [hstep] at h; simp [Bind.bind, Except.bind] at h
    | ok mid =>
      rw [hstep] at h
      simp only [Bind.bind, Except.bind] at h
      have := checkFields_foldlM_strict d c rest mid ws' h
      rw [this, checkFieldsStep_strict_ok hstep]

/-- C4: in lenient mode, a version conflict for a shared dependency id is
resolved to the plain-string maximum of the two version strings (the
lexicographically greater one) and produces exactly one warning; applied to
the versions `"1.2.0"` and `"1.10.0"` this selects `"1.2.0"` (see the
witness). -/
theorem reconcile_requires_lenient_string_max
    (a v1 v2 : String) (ha : a ≠ "") (hv : v1 ≠ v2) :
    reconcile_requires [⟨a, v1⟩] [⟨a, v2⟩] false =
      .ok ([⟨a, pymaxS v1 v2⟩], [depWarnMsg a v1 v2 (pymaxS v1 v2)])
    ∧ (v1 < v2 → pymaxS v1 v2 = v2) ∧ (v2 < v1 → pymaxS v1 v2 = v1) := by
  refine ⟨?_, fun h => by simp [pymaxS, h], fun h => by simp [pymaxS, asymm h]⟩
  simp [reconcile_requires, loadXmlRequires, dictSet, dictMem, dictGet, ha,
        overlayStep, hv, Bind.bind, Except.bind, pure, Except.pure,
        List.mergeSort_singleton]

/-- Witness for C4 at the example pinned in the spec: conflicting versions
`"1.2.0"` vs `"1.10.0"` select `"1.2.0"` (string-max, not semver-max). -/
theorem reconcile_requires_lenient_string_max_wit :
    ("dep" : String) ≠ "" ∧ ("1.2.0" : String) ≠ "1.10.0" ∧
    reconcile_requires [⟨"dep", "1.2.0"⟩] [⟨"dep", "1.10.0"⟩] false =
      .ok ([⟨"dep", "1.2.0"⟩], [depWarnMsg "dep" "1.2.0" "1.10.0" "1.2.0"]) := by
  have h := reconcile_requires_lenient_string_max "dep" "1.2.0" "1.10.0"
    (by decide) (by decide)
  have hmax : pymaxS "1.2.0" "1.10.0" = "1.2.0" := by
    have hlt : ¬ ("1.2.0" : String) < "1.10.0" := by
      rw [String.lt_iff_toList_lt]; decide
    simp [pymaxS, hlt]
  exact ⟨by decide, by decide, by rw [h.1, hmax]⟩

/-! Key uniqueness of the embedded dict, and sortedness of the merged list. -/

theorem dictMem_iff {d : ReqDict} {k : String} :
    dictMem d k = true ↔ k ∈ d.map Prod.fst := by
  simp [dictMem, List.any_eq_true, List.mem_map, beq_iff_eq]

theorem dictSet_keys_of_mem {d : ReqDict} {k : String} (hm : dictMem d k = true)
    (v : String) : (dictSet d k v).map Prod.fst = d.map Prod.fst := by
  unfold dictSet
  rw [if_pos hm, List.map_map]
  apply List.map_congr_left
  intro p _
  by_cases hp : p.1 == k
  · simp [Function.comp, hp, (eq_of_beq hp).symm]
  · simp [Function.comp, hp]

theorem dictSet_keys_of_not_mem {d : ReqDict} {k : String} (hm : dictMem d k = false)
    (v : String) : (dictSet d k v).map Prod.fst = d.map Prod.fst ++ [k] := by
  unfold dictSet
  rw [if_neg (by simp [hm]), List.map_append]
  rfl

theorem nodupKeys_dictSet {d : ReqDict} {k v : String}
    (h : (d.map Prod.fst).Nodup) : ((dictSet d k v).map Prod.fst).Nodup := by
  by_cases hm : dictMem d k = true
  · rw [dictSet_keys_of_mem hm]; exact h
  · rw [dictSet_keys_of_not_mem (by simpa using hm)]
    have hk : k ∉ d.map Prod.fst := fun hmem => hm (dictMem_iff.mpr hmem)
    simp [List.nodup_append, h, hk]

theorem nodupKeys_foldl_load (xml : List Require) :
    ∀ d : ReqDict, (d.map Prod.fst).Nodup →
      ((xml.foldl (fun d r => if r.addon ≠ "" then dictSet d r.addon r.version else d)
        d).map Prod.fst).Nodup := by
  induction xml with
  | nil => intro d h; simpa using h
  | cons r rest ih =>
    intro d h
    simp only [List.foldl_cons]
    apply ih
    by_cases hr : r.addon ≠ "" <;> simp [hr, nodupKeys_dictSet h, h]

theorem nodupKeys_loadXmlRequires (xml : List Require) :
    ((loadXmlRequires xml).map Prod.fst).Nodup :=
  nodupKeys_foldl_load xml [] (by simp)

theorem overlayStep_nodup {strict : Bool} {st st' : ReqDict × List String}
    {r : Require} (h : overlayStep strict st r = .ok st')
    (hn : (st.1.map Prod.fst).Nodup) : (st'.1.map Prod.fst).Nodup := by
  unfold overlayStep at h
  by_cases h1 : r.addon = ""
  · rw [if_pos h1] at h
    injection h with h
    subst h; exact hn
  rw [if_neg h1] at h
  by_cases h2 : dictMem st.1 r.addon = true
  · rw [if_pos h2] at h
    by_cases h3 : dictGet st.1 r.addon ≠ r.version
    · rw [if_pos h3] at h
      cases strict with
      | true => simp at h
      | false =>
        simp only [Bool.false_eq_true, if_false] at h
        injection h with h
        rw [← h]
        exact nodupKeys_dictSet hn
    · rw [if_neg h3] at h
      injection h with h
      subst h; exact hn
  · rw [if_neg h2] at h
    injection h with h
    rw [← h]
    exact nodupKeys_dictSet hn

theorem overlay_foldlM_nodup {strict : Bool} :
    ∀ (l : List Require) (st st' : ReqDict × List String),
      l.foldlM (overlayStep strict) st = .ok st' →
      (st.1.map Prod.fst).Nodup → (st'.1.map Prod.fst).Nodup
  | [], st, st', h, hn => by
    simp only [List.foldlM_nil, pure] at h
    cases h; exact hn
  | r :: rest, st, st', h, hn => by
    simp only [List.foldlM_cons] at h
    cases hstep : overlayStep strict st r with
    | error e => rw [hstep] at h; simp [Bind.bind, Except.bind] at h
    | ok mid =>
      rw [hstep] at h
      simp only [Bind.bind, Except.bind] at h
      exact overlay_foldlM_nodup rest mid st' h (overlayStep_nodup hstep hn)

theorem pairLe_trans : ∀ a b c : String × String, pairLe a b → pairLe b c → pairLe a c := by
  intro a b c hab hbc
  simp only [pairLe, decide_eq_true_eq] at *
  exact le_trans hab hbc

theorem pairLe_total : ∀ a b : String × String, pairLe a b || pairLe b a := by
  intro a b
  simp only [pairLe, Bool.or_eq_true, decide_eq_true_eq]
  exact le_total a.1 b.1

/-- C5: any successfully merged requirement list is strictly ascending in
dependency id, hence sorted and with at most one entry per id. -/
theorem reconcile_requires_sorted_nodup (xml config : List Require) (strict : Bool)
    (merged : List Require) (w : List String)
    (h : reconcile_requires xml config strict = .ok (merged, w)) :
    merged.Pairwise (fun r1 r2 => r1.addon < r2.addon)
    ∧ (merged.map Require.addon).Nodup := by
  unfold reconcile_requires at h
  cases hf : config.foldlM (overlayStep strict) (loadXmlRequires xml, []) with
  | error e => rw [hf] at h; simp [Bind.bind, Except.bind] at h
  | ok st =>
    rw [hf] at h
    simp only [Bind.bind, Except.bind, pure, Except.ok.injEq, Prod.mk.injEq] at h
    obtain ⟨hm, _⟩ := h
    have hnd : (st.1.map Prod.fst).Nodup :=
      overlay_foldlM_nodup config _ st hf (nodupKeys_loadXmlRequires xml)
    have hsorted : (st.1.mergeSort pairLe).Pairwise (fun a b => pairLe a b = true) :=
      List.sorted_mergeSort pairLe_trans pairLe_total st.1
    have hperm : List.Perm (st.1.mergeSort pairLe) st.1 := List.mergeSort_perm st.1 pairLe
    have hnd' : ((st.1.mergeSort pairLe).map Prod.fst).Nodup :=
      ((hperm.map Prod.fst).nodup_iff).mpr hnd
    have hne : (st.1.mergeSort pairLe).Pairwise (fun a b => a.1 ≠ b.1) :=
      List.pairwise_map.mp hnd'
    have hkeys : (st.1.mergeSort pairLe).Pairwise (fun a b => a.1 < b.1) :=
      (hsorted.and hne).imp (fun hab =>
        lt_of_le_of_ne (by simpa [pairLe] using hab.1) hab.2)
    constructor
    · rw [← hm]
      exact List.pairwise_map.mpr hkeys
    · rw [← hm, List.map_map]
      exact hnd'

/-- Witness for C5: a concrete merge is returned in ascending id order with
unique ids. -/
theorem reconcile_requires_sorted_nodup_wit :
    reconcile_requires [⟨"a", "1"⟩] [⟨"b", "2"⟩] false
      = .ok ([⟨"a", "1"⟩, ⟨"b", "2"⟩], [])
    ∧ List.Pairwise (fun r1 r2 : Require => r1.addon < r2.addon)
        [Require.mk "a" "1", Require.mk "b" "2"]
    ∧ ([Require.mk "a" "1", Require.mk "b" "2"].map Require.addon).Nodup := by
  have hsort : ([(("a" : String), ("1" : String)), ("b", "2")]).Pairwise
      (fun a b => pairLe a b = true) := by
    simp [pairLe, String.le_iff_toList_le]
    decide
  have hrun : reconcile_requires [⟨"a", "1"⟩] [⟨"b", "2"⟩] false
      = .ok ([⟨"a", "1"⟩, ⟨"b", "2"⟩], []) := by
    simp [reconcile_requires, loadXmlRequires, overlayStep, dictMem, dictGet,
      dictSet, Bind.bind, Except.bind, pure, Except.pure,
      List.mergeSort_of_sorted hsort]
  have h := reconcile_requires_sorted_nodup [⟨"a", "1"⟩] [⟨"b", "2"⟩] false
    [⟨"a", "1"⟩, ⟨"b", "2"⟩] [] hrun
  exact ⟨hrun, h.1, h.2⟩

/-! Conflict-free reconciliation: premises and helper lemmas for C2. -/

/-- The two requirement lists agree on versions: any two entries drawn from
either list that share a dependency id carry the same version string. -/
def reqAgree (xs ys : List Require) : Prop :=
  ∀ r ∈ xs ++ ys, ∀ r2 ∈ xs ++ ys, r.addon = r2.addon → r.version = r2.version

instance (xs ys : List Require) : Decidable (reqAgree xs ys) := by
  unfold reqAgree
  infer_instance

/-- Every entry of the dict was contributed by some requirement in `pool`. -/
def dictFrom (pool : List Require) (d : ReqDict) : Prop :=
  ∀ p ∈ d, ∃ r ∈ pool, r.addon = p.1 ∧ r.version = p.2

theorem dictFrom_dictSet {pool : List Require} {d : ReqDict} {k v : String}
    (hd : dictFrom pool d) (hkv : ∃ r ∈ pool, r.addon = k ∧ r.version = v) :
    dictFrom pool (dictSet d k v) := by
  intro p hp
  unfold dictSet at hp
  by_cases hm : dictMem d k = true
  · rw [if_pos hm] at hp
    obtain ⟨q, hq, hpq⟩ := List.mem_map.mp hp
    by_cases hqk : q.1 == k
    · rw [if_pos hqk] at hpq
      rw [← hpq]
      exact hkv
    · rw [if_neg hqk] at hpq
      rw [← hpq]
      exact hd q hq
  · rw [if_neg hm] at hp
    rcases List.mem_append.mp hp with hp | hp
    · exact hd p hp
    · rw [List.mem_singleton.mp hp]
      exact hkv

theorem dictGet_mem {d : ReqDict} {k : String} (hm : dictMem d k = true) :
    (k, dictGet d k) ∈ d := by
  unfold dictMem at hm
  obtain ⟨p, hp, hpk⟩ := List.any_eq_true.mp hm
  have hfind : ∃ q, d.find? (fun p => p.1 == k) = some q := by
    cases hq : d.find? (fun p => p.1 == k) with
    | some q => exact ⟨q, rfl⟩
    | none => exact absurd hpk (by simpa using List.find?_eq_none.mp hq p hp)
  obtain ⟨q, hq⟩ := hfind
  have hqk : q.1 = k := by simpa using List.find?_some hq
  have hqd : q ∈ d := List.mem_of_find?_eq_some hq
  have : dictGet d k = q.2 := by simp [dictGet, hq]
  rw [this, ← hqk]
  exact hqd

theorem dictFrom_loadXml_aux (pool : List Require) :
    ∀ (l : List Require) (d : ReqDict), (∀ r ∈ l, r ∈ pool) → dictFrom pool d →
      dictFrom pool
        (l.foldl (fun d r => if r.addon ≠ "" then dictSet d r.addon r.version else d) d) := by
  intro l
  induction l with
  | nil => intro d _ hd; simpa using hd
  | cons r rest ih =>
    intro d hl hd
    simp only [List.foldl_cons]
    apply ih _ (fun q hq => hl q (List.mem_cons_of_mem r hq))
    by_cases hr : r.addon ≠ ""
    · rw [if_pos hr]
      exact dictFrom_dictSet hd ⟨r, hl r (List.mem_cons_self _ _), rfl, rfl⟩
    · rw [if_neg hr]
      exact hd

theorem dictFrom_loadXmlRequires (xs ys : List Require) :
    dictFrom (xs ++ ys) (loadXmlRequires xs) :=
  dictFrom_loadXml_aux (xs ++ ys) xs []
    (fun r hr => List.mem_append.mpr (Or.inl hr)) (by intro p hp; cases hp)

theorem overlay_foldlM_agree {pool : List Require}
    (hagree : ∀ r ∈ pool, ∀ r2 ∈ pool, r.addon = r2.addon → r.version = r2.version) :
    ∀ (l : List Require) (d : ReqDict) (w : List String) (strict : Bool),
      (∀ r ∈ l, r ∈ pool) → dictFrom pool d →
      ∃ d', l.foldlM (overlayStep strict) (d, w) = .ok (d', w) ∧ dictFrom pool d' := by
  intro l
  induction l with
  | nil => intro d w strict _ hd; exact ⟨d, rfl, hd⟩
  | cons r rest ih =>
    intro d w strict hl hd
    have hrpool : r ∈ pool := hl r (List.mem_cons_self _ _)
    have hrest : ∀ q ∈ rest, q ∈ pool := fun q hq => hl q (List.mem_cons_of_mem r hq)
    by_cases h1 : r.addon = ""
    · have hstep : overlayStep strict (d, w) r = .ok (d, w) := by
        unfold overlayStep
        rw [if_pos h1]
      obtain ⟨d', hfold, hd'⟩ := ih d w strict hrest hd
      exact ⟨d', by simp only [List.foldlM_cons, hstep, Bind.bind, Except.bind, hfold], hd'⟩
    · by_cases h2 : dictMem d r.addon = true
      · have hver : dictGet d r.addon = r.version := by
          obtain ⟨q, hqpool, hqa, hqv⟩ := hd _ (dictGet_mem h2)
          exact hqv.symm.trans (hagree q hqpool r hrpool hqa)
        have hstep : overlayStep strict (d, w) r = .ok (d, w) := by
          unfold overlayStep
          rw [if_neg h1, if_pos h2, if_neg (by simp [hver])]
        obtain ⟨d', hfold, hd'⟩ := ih d w strict hrest hd
        exact ⟨d', by simp only [List.foldlM_cons, hstep, Bind.bind, Except.bind, hfold], hd'⟩
      · have hstep : overlayStep strict (d, w) r
            = .ok (dictSet d r.addon r.version, w) := by
          unfold overlayStep
          rw [if_neg h1, if_neg h2]
        have hd2 : dictFrom pool (dictSet d r.addon r.version) :=
          dictFrom_dictSet hd ⟨r, hrpool, rfl, rfl⟩
        obtain ⟨d', hfold, hd'⟩ := ih (dictSet d r.addon r.version) w strict hrest hd2
        exact ⟨d', by simp only [List.foldlM_cons, hstep, Bind.bind, Except.bind, hfold], hd'⟩

theorem reconcile_requires_agree (xs ys : List Require) (strict : Bool)
    (h : reqAgree xs ys) :
    ∃ merged, reconcile_requires xs ys strict = .ok (merged, []) := by
  obtain ⟨d', hfold, _⟩ := overlay_foldlM_agree h ys (loadXmlRequires xs) [] strict
    (fun r hr => List.mem_append.mpr (Or.inr hr)) (dictFrom_loadXmlRequires xs ys)
  exact ⟨(d'.mergeSort pairLe).map (fun p => Require.mk p.1 p.2),
    by simp only [reconcile_requires, hfold, Bind.bind, Except.bind, pure, Except.pure]⟩

/-- The premise of C2: no declarable field is non-empty (truthy) in both the
manifest and the config. -/
def declOverlapFree (d : AddonXmlData) (c : AddonConfig) : Prop :=
  ¬(truthy d.id = true ∧ truthy (some c.id) = true)
  ∧ ¬(truthy d.name = true ∧ truthy c.name = true)
  ∧ ¬(truthy d.provider_name = true ∧ truthy c.provider_name = true)
  ∧ ¬(truthy d.description = true ∧ truthy c.description = true)
  ∧ ¬(truthy d.summary = true ∧ truthy c.summary = true)
  ∧ ¬(truthy d.license = true ∧ truthy c.license = true)
  ∧ ¬(truthy d.disclaimer = true ∧ truthy c.disclaimer = true)
  ∧ ¬(truthy d.source = true ∧ truthy c.source = true)
  ∧ ¬(d.assets ≠ [] ∧ c.assets ≠ [])

theorem checkFieldsStep_ok_of_no_overlap {d : AddonXmlData} {c : AddonConfig}
    {strict : Bool} {ws : List String} {f : String}
    (h : ¬(truthy (xmlField d f) = true ∧ truthy (cfgField c f) = true)) :
    checkFieldsStep d c strict ws f = .ok ws := by
  unfold checkFieldsStep
  rw [if_neg]
  rintro ⟨ha, hb, _⟩
  exact h ⟨ha, hb⟩

theorem checkFields_ok_of_overlapFree {d : AddonXmlData} {c : AddonConfig}
    {strict : Bool} (h : declOverlapFree d c) :
    checkedFields.foldlM (checkFieldsStep d c strict) [] = .ok [] := by
  obtain ⟨h1, h2, h3, h4, _⟩ := h
  simp only [checkedFields, List.foldlM_cons, List.foldlM_nil,
    checkFieldsStep_ok_of_no_overlap (f := "id") (fun hc => h1 hc),
    checkFieldsStep_ok_of_no_overlap (f := "name") (fun hc => h2 hc),
    checkFieldsStep_ok_of_no_overlap (f := "provider-name") (fun hc => h3 hc),
    checkFieldsStep_ok_of_no_overlap (f := "description") (fun hc => h4 hc),
    Bind.bind, Except.bind, pure, Except.pure]

/-- C2 (amended): when no declarable field is truthy in both records and the
requirement lists agree on versions, `reconcile_addon` succeeds with zero
warnings in both modes, and every declarable field of the merged record is
the value from the config (that value is used even where only the manifest
declares the field). -/
theorem reconcile_addon_disjoint_config_wins
    (d : AddonXmlData) (c : AddonConfig) (strict : Bool)
    (hfree : declOverlapFree d c) (hagree : reqAgree d.requires c.requires) :
    ∃ merged, reconcile_addon (some d) (some c) strict = .ok (merged, [])
      ∧ merged.lookup "id" = some (.vstr (some c.id))
      ∧ merged.lookup "name" = some (.vstr c.name)
      ∧ merged.lookup "provider-name" = some (.vstr c.provider_name)
      ∧ merged.lookup "description" = some (.vstr c.description)
      ∧ merged.lookup "summary" = some (.vstr c.summary)
      ∧ merged.lookup "license" = some (.vstr c.license)
      ∧ merged.lookup "disclaimer" = some (.vstr c.disclaimer)
      ∧ merged.lookup "source" = some (.vstr c.source)
      ∧ merged.lookup "assets" = some (.vassets c.assets) := by
  obtain ⟨mreq, hreq⟩ := reconcile_requires_agree d.requires c.requires strict hagree
  have hrun : reconcile_addon (some d) (some c) strict
      = .ok ([("id", .vstr (some c.id)), ("name", .vstr c.name),
              ("provider-name", .vstr c.provider_name),
              ("description", .vstr c.description), ("summary", .vstr c.summary),
              ("license", .vstr c.license), ("disclaimer", .vstr c.disclaimer),
              ("source", .vstr c.source), ("assets", .vassets c.assets),
              ("requires", .vreqs mreq),
              ("news", .vstr (some (if truthy d.news then d.news.getD "" else ""))),
              ("unknown_extensions", .vstr (some d.get_unknown_extensions_xml))],
             []) := by
    simp only [reconcile_addon, checkFields_ok_of_overlapFree hfree, hreq,
      Bind.bind, Except.bind, pure, Except.pure, List.nil_append]
  exact ⟨_, hrun, by simp [List.lookup], by simp [List.lookup], by simp [List.lookup],
    by simp [List.lookup], by simp [List.lookup], by simp [List.lookup],
    by simp [List.lookup], by simp [List.lookup], by simp [List.lookup]⟩

/-- Witness for C2 on a concrete disjoint pair. -/
theorem reconcile_addon_disjoint_config_wins_wit :
    ∃ merged,
      reconcile_addon
        (some { summary := some "S", requires := [⟨"dep1", "1.0.0"⟩] })
        (some { id := "mod.a", name := some "A", requires := [⟨"dep1", "1.0.0"⟩] })
        false = .ok (merged, [])
      ∧ merged.lookup "id" = some (.vstr (some "mod.a"))
      ∧ merged.lookup "name" = some (.vstr (some "A"))
      ∧ merged.lookup "provider-name" = some (.vstr none)
      ∧ merged.lookup "description" = some (.vstr none)
      ∧ merged.lookup "summary" = some (.vstr none)
      ∧ merged.lookup "license" = some (.vstr none)
      ∧ merged.lookup "disclaimer" = some (.vstr none)
      ∧ merged.lookup "source" = some (.vstr none)
      ∧ merged.lookup "assets" = some (.vassets []) :=
  reconcile_addon_disjoint_config_wins
    { summary := some "S", requires := [⟨"dep1", "1.0.0"⟩] }
    { id := "mod.a", name := some "A", requires := [⟨"dep1", "1.0.0"⟩] }
    false (by simp [declOverlapFree, truthy]) (by decide)

/-- C6: in strict mode, `reconcile_addon` either fails outright or returns a
merged record together with an empty warning list; it never returns a result
accompanied by warnings. -/
theorem reconcile_addon_strict_no_partial
    (xml_data : Option AddonXmlData) (config : Option AddonConfig)
    (merged : List (String × Value)) (w : List String)
    (h : reconcile_addon xml_data config true = .ok (merged, w)) : w = [] := by
  cases config with
  | none =>
    cases xml_data <;>
      simp only [reconcile_addon, Except.ok.injEq, Prod.mk.injEq] at h <;>
      exact h.2.symm
  | some c =>
    cases xml_data with
    | none =>
      simp only [reconcile_addon] at h
      cases hr : reconcile_requires [] c.requires true with
      | error e => rw [hr] at h; simp [Bind.bind, Except.bind] at h
      | ok pr =>
        rw [hr] at h
        simp only [Bind.bind, Except.bind, pure, Except.ok.injEq, Prod.mk.injEq] at h
        rw [← h.2]
        simpa using reconcile_requires_strict_no_warnings [] c.requires pr.1 pr.2
          (by rw [hr])
    | some d =>
      simp only [reconcile_addon] at h
      cases hfw : checkedFields.foldlM (checkFieldsStep d c true) [] with
      | error e => rw [hfw] at h; simp [Bind.bind, Except.bind] at h
      | ok fw =>
        rw [hfw] at h
        simp only [Bind.bind, Except.bind] at h
        cases hr : reconcile_requires d.requires c.requires true with
        | error e => rw [hr] at h; simp at h
        | ok pr =>
          rw [hr] at h
          simp only [pure, Except.ok.injEq, Prod.mk.injEq] at h
          rw [← h.2, checkFields_foldlM_strict d c checkedFields [] fw hfw,
            reconcile_requires_strict_no_warnings d.requires c.requires pr.1 pr.2
              (by rw [hr])]
          rfl

/-- Witness for C6: a strict reconciliation that succeeds on concrete input
does so with an empty warning list. -/
theorem reconcile_addon_strict_no_partial_wit :
    ∃ merged w,
      reconcile_addon (some { id := some "mod.a", requires := [⟨"dep1", "1.0.0"⟩] })
        (some { id := "mod.a", requires := [⟨"dep1", "1.0.0"⟩] }) true
        = .ok (merged, w) ∧ w = [] := by
  have hrun : reconcile_addon
      (some { id := some "mod.a", requires := [⟨"dep1", "1.0.0"⟩] })
      (some { id := "mod.a", requires := [⟨"dep1", "1.0.0"⟩] }) true
      = .ok ([("id", .vstr (some "mod.a")), ("name", .vstr none),
              ("provider-name", .vstr none), ("description", .vstr none),
              ("summary", .vstr none), ("license", .vstr none),
              ("disclaimer", .vstr none), ("source", .vstr none),
              ("assets", .vassets []), ("requires", .vreqs [⟨"dep1", "1.0.0"⟩]),
              ("news", .vstr (some "")), ("unknown_extensions", .vstr (some ""))],
             []) := by
    simp [reconcile_addon, checkedFields, checkFieldsStep, xmlField, cfgField,
      truthy, reconcile_requires, loadXmlRequires, overlayStep, dictMem, dictGet,
      dictSet, AddonXmlData.get_unknown_extensions_xml, Bind.bind, Except.bind,
      pure, Except.pure, List.mergeSort_singleton]
  exact ⟨_, _, hrun,
    reconcile_addon_strict_no_partial _ _ _ _ hrun⟩

/-! C2 counterexample and the C3 claim about the shape of the merged record. -/

def dC2 : AddonXmlData := { summary := some "S", requires := [⟨"depq", "1"⟩] }

def cC2 : AddonConfig := { id := "i", requires := [⟨"depq", "2"⟩] }

def mC2 : List (String × Value) :=
  [("id", .vstr (some "i")), ("name", .vstr none), ("provider-name", .vstr none),
   ("description", .vstr none), ("summary", .vstr none), ("license", .vstr none),
   ("disclaimer", .vstr none), ("source", .vstr none), ("assets", .vassets []),
   ("requires", .vreqs [⟨"depq", "2"⟩]), ("news", .vstr (some "")),
   ("unknown_extensions", .vstr (some ""))]

/-- Counterexample to C2 as stated: the premise (no declarable field truthy
in both records) holds, yet the summary declared only by the manifest is not
merged (the empty config value wins), and a lenient requirement conflict
still produces a warning. -/
theorem reconcile_addon_disjoint_cex :
    declOverlapFree dC2 cC2
    ∧ dC2.summary = some "S"
    ∧ reconcile_addon (some dC2) (some cC2) false
        = .ok (mC2, [depWarnMsg "depq" "1" "2" "2"])
    ∧ mC2.lookup "summary" = some (.vstr none) := by
  refine ⟨by simp [declOverlapFree, dC2, cC2, truthy], by simp [dC2], ?_,
    by simp [mC2, List.lookup]⟩
  have hlt : ("1" : String) < "2" := by
    rw [String.lt_iff_toList_lt]; decide
  have hmax : pymaxS "1" "2" = "2" := by simp [pymaxS, hlt]
  simp [reconcile_addon, dC2, cC2, mC2, checkedFields, checkFieldsStep, xmlField,
    cfgField, truthy, reconcile_requires, loadXmlRequires, overlayStep, dictMem,
    dictGet, dictSet, hmax, AddonXmlData.get_unknown_extensions_xml, Bind.bind,
    Except.bind, pure, Except.pure, List.mergeSort_singleton]

def dC3 : AddonXmlData := { version := some "9.9.9" }

def cC3 : AddonConfig := { id := "mod.a" }

def mC3 : List (String × Value) :=
  [("id", .vstr (some "mod.a")), ("name", .vstr none), ("provider-name", .vstr none),
   ("description", .vstr none), ("summary", .vstr none), ("license", .vstr none),
   ("disclaimer", .vstr none), ("source", .vstr none), ("assets", .vassets []),
   ("requires", .vreqs []), ("news", .vstr (some "")),
   ("unknown_extensions", .vstr (some ""))]

/-- Counterexample to C3 as stated: when a config is present the manifest
version string is dropped — the merged record has no `version` entry at
all. -/
theorem reconcile_addon_version_dropped_cex :
    dC3.version = some "9.9.9"
    ∧ reconcile_addon (some dC3) (some cC3) false = .ok (mC3, [])
    ∧ mC3.lookup "version" = none := by
  refine ⟨by simp [dC3], ?_, by simp [mC3, List.lookup]⟩
  simp [reconcile_addon, dC3, cC3, mC3, checkedFields, checkFieldsStep, xmlField,
    cfgField, truthy, reconcile_requires, loadXmlRequires, Bind.bind, Except.bind,
    pure, Except.pure, AddonXmlData.get_unknown_extensions_xml]

/-- C3 (amended): when both manifest and config are present, the merged
record consists of exactly the twelve keys id, name, provider-name,
description, summary, license, disclaimer, source, assets, requires, news and
unknown_extensions — the config supplies the declarable fields and the
version string of the manifest is not carried over (there is no `version`
entry). -/
theorem reconcile_addon_merged_shape
    (d : AddonXmlData) (c : AddonConfig) (strict : Bool)
    (merged : List (String × Value)) (w : List String)
    (h : reconcile_addon (some d) (some c) strict = .ok (merged, w)) :
    merged.map Prod.fst = ["id", "name", "provider-name", "description",
      "summary", "license", "disclaimer", "source", "assets", "requires",
      "news", "unknown_extensions"]
    ∧ merged.lookup "version" = none
    ∧ merged.lookup "id" = some (.vstr (some c.id)) := by
  simp only [reconcile_addon] at h
  cases hfw : checkedFields.foldlM (checkFieldsStep d c strict) [] with
  | error e => rw [hfw] at h; simp [Bind.bind, Except.bind] at h
  | ok fw =>
    rw [hfw] at h
    simp only [Bind.bind, Except.bind] at h
    cases hr : reconcile_requires d.requires c.requires strict with
    | error e => rw [hr] at h; simp at h
    | ok pr =>
      rw [hr] at h
      simp only [pure, Except.ok.injEq, Prod.mk.injEq] at h
      obtain ⟨hm, _⟩ := h
      rw [← hm]
      exact ⟨rfl, by simp [List.lookup], by simp [List.lookup]⟩

/-- Witness for C3 (amended) on a concrete input. -/
theorem reconcile_addon_merged_shape_wit :
    ∃ merged w,
      reconcile_addon (some dC3) (some cC3) true = .ok (merged, w)
      ∧ merged.map Prod.fst = ["id", "name", "provider-name", "description",
          "summary", "license", "disclaimer", "source", "assets", "requires",
          "news", "unknown_extensions"]
      ∧ merged.lookup "version" = none
      ∧ merged.lookup "id" = some (.vstr (some "mod.a")) := by
  have hrun : reconcile_addon (some dC3) (some cC3) true = .ok (mC3, []) := by
    simp [reconcile_addon, dC3, cC3, mC3, checkedFields, checkFieldsStep, xmlField,
      cfgField, truthy, reconcile_requires, loadXmlRequires, Bind.bind, Except.bind,
      pure, Except.pure, AddonXmlData.get_unknown_extensions_xml]
  obtain ⟨h1, h2, h3⟩ := reconcile_addon_merged_shape dC3 cC3 true mC3 [] hrun
  exact ⟨mC3, [], hrun, h1, h2, by simpa [cC3] using h3⟩

/-! C1: strict-mode conflict reporting is fail-fast, not batch. -/

/-- Boolean form of the conflict test of the field-checking loop. -/
def fieldConflictB (d : AddonXmlData) (c : AddonConfig) (f : String) : Bool :=
  truthy (xmlField d f) && truthy (cfgField c f) && (xmlField d f != cfgField c f)

/-- The first checked field on which manifest and config conflict, in the
source loop order id, name, provider-name, description. -/
def firstFieldConflict? (d : AddonXmlData) (c : AddonConfig) : Option String :=
  checkedFields.find? (fieldConflictB d c)

/-- First dependency-version conflict the overlay loop of
`reconcile_requires` encounters, simulating its dict updates. -/
def depConflictScan : ReqDict → List Require → Option (String × String × String)
  | _, [] => none
  | dd, r :: rest =>
    if r.addon = "" then depConflictScan dd rest
    else if dictMem dd r.addon then
      if dictGet dd r.addon ≠ r.version then
        some (r.addon, dictGet dd r.addon, r.version)
      else depConflictScan dd rest
    else depConflictScan (dictSet dd r.addon r.version) rest

def firstDepConflict? (xs ys : List Require) : Option (String × String × String) :=
  depConflictScan (loadXmlRequires xs) ys

/-- Message of the first conflict `reconcile_addon` encounters in strict
mode: field conflicts in loop order take precedence over dependency
conflicts. -/
def firstConflictMsg? (d : AddonXmlData) (c : AddonConfig) : Option String :=
  match firstFieldConflict? d c with
  | some f =>
    some (fieldConflictMsg f ((xmlField d f).getD "") ((cfgField c f).getD ""))
  | none =>
    match firstDepConflict? d.requires c.requires with
    | some (a, xv, cv) => some (depConflictMsg a xv cv)
    | none => none

theorem checkFieldsStep_error_of_conflict {d : AddonXmlData} {c : AddonConfig}
    {ws : List String} {f : String} (hb : fieldConflictB d c f = true) :
    checkFieldsStep d c true ws f
      = .error (fieldConflictMsg f ((xmlField d f).getD "") ((cfgField c f).getD "")) := by
  simp only [fieldConflictB, Bool.and_eq_true, bne_iff_ne] at hb
  unfold checkFieldsStep
  rw [if_pos ⟨hb.1.1, hb.1.2, hb.2⟩, if_pos rfl]

theorem checkFieldsStep_ok_of_no_conflict {d : AddonXmlData} {c : AddonConfig}
    {strict : Bool} {ws : List String} {f : String}
    (hb : fieldConflictB d c f = false) :
    checkFieldsStep d c strict ws f = .ok ws := by
  unfold checkFieldsStep
  rw [if_neg]
  rintro ⟨h1, h2, h3⟩
  simp [fieldConflictB, h1, h2] at hb
  exact h3 (by simpa using hb)

theorem checkFields_foldlM_find_error (d : AddonXmlData) (c : AddonConfig) :
    ∀ (fs : List String) (ws : List String) (f : String),
      fs.find? (fieldConflictB d c) = some f →
      fs.foldlM (checkFieldsStep d c true) ws
        = .error (fieldConflictMsg f ((xmlField d f).getD "") ((cfgField c f).getD "")) := by
  intro fs
  induction fs with
  | nil => intro ws f h; cases h
  | cons g rest ih =>
    intro ws f h
    by_cases hg : fieldConflictB d c g = true
    · rw [List.find?_cons_of_pos _ hg] at h
      injection h with h
      subst h
      simp only [List.foldlM_cons, checkFieldsStep_error_of_conflict hg,
        Bind.bind, Except.bind]
    · rw [List.find?_cons_of_neg _ (by simpa using hg)] at h
      simp only [List.foldlM_cons,
        checkFieldsStep_ok_of_no_conflict (by simpa using hg), Bind.bind, Except.bind]
      exact ih ws f h

theorem checkFields_foldlM_find_none (d : AddonXmlData) (c : AddonConfig) :
    ∀ (fs : List String) (ws : List String),
      fs.find? (fieldConflictB d c) = none →
      fs.foldlM (checkFieldsStep d c true) ws = .ok ws := by
  intro fs
  induction fs with
  | nil => intro ws _; rfl
  | cons g rest ih =>
    intro ws h
    by_cases hg : fieldConflictB d c g = true
    · rw [List.find?_cons_of_pos _ hg] at h; cases h
    · rw [List.find?_cons_of_neg _ (by simpa using hg)] at h
      simp only [List.foldlM_cons,
        checkFieldsStep_ok_of_no_conflict (by simpa using hg), Bind.bind, Except.bind]
      exact ih ws h

theorem overlay_foldlM_scan_error :
    ∀ (l : List Require) (dd : ReqDict) (w : List String) (a xv cv : String),
      depConflictScan dd l = some (a, xv, cv) →
      l.foldlM (overlayStep true) (dd, w) = .error (depConflictMsg a xv cv) := by
  intro l
  induction l with
  | nil => intro dd w a xv cv h; cases h
  | cons r rest ih =>
    intro dd w a xv cv h
    unfold depConflictScan at h
    by_cases h1 : r.addon = ""
    · rw [if_pos h1] at h
      have hstep : overlayStep true (dd, w) r = .ok (dd, w) := by
        unfold overlayStep
        rw [if_pos h1]
      simp only [List.foldlM_cons, hstep, Bind.bind, Except.bind]
      exact ih dd w a xv cv h
    · rw [if_neg h1] at h
      by_cases h2 : dictMem dd r.addon = true
      · rw [if_pos h2] at h
        by_cases h3 : dictGet dd r.addon ≠ r.version
        · rw [if_pos h3] at h
          injection h with h
          injection h with ha h
          injection h with hxv hcv
          subst ha; subst hxv; subst hcv
          have hstep : overlayStep true (dd, w) r
              = .error (depConflictMsg r.addon (dictGet dd r.addon) r.version) := by
            unfold overlayStep
            rw [if_neg h1, if_pos h2, if_pos h3, if_pos rfl]
          simp only [List.foldlM_cons, hstep, Bind.bind, Except.bind]
        · rw [if_neg h3] at h
          have hstep : overlayStep true (dd, w) r = .ok (dd, w) := by
            unfold overlayStep
            rw [if_neg h1, if_pos h2, if_neg h3]
          simp only [List.foldlM_cons, hstep, Bind.bind, Except.bind]
          exact ih dd w a xv cv h
      · rw [if_neg h2] at h
        have hstep : overlayStep true (dd, w) r
            = .ok (dictSet dd r.addon r.version, w) := by
          unfold overlayStep
          rw [if_neg h1, if_neg h2]
        simp only [List.foldlM_cons, hstep, Bind.bind, Except.bind]
        exact ih _ w a xv cv h

/-- C1 (amended): in strict mode a conflicted reconciliation fails with an
error identifying the **first** conflict encountered — checked fields in the
order id, name, provider-name, description, then the first dependency-version
conflict in config order — not every conflict. -/
theorem reconcile_addon_strict_reports_first_conflict
    (d : AddonXmlData) (c : AddonConfig) (msg : String)
    (h : firstConflictMsg? d c = some msg) :
    reconcile_addon (some d) (some c) true = .error msg := by
  unfold firstConflictMsg? at h
  cases hff : firstFieldConflict? d c with
  | some f =>
    rw [hff] at h
    injection h with h
    subst h
    simp only [reconcile_addon,
      checkFields_foldlM_find_error d c checkedFields [] f hff, Bind.bind, Except.bind]
  | none =>
    rw [hff] at h
    cases hdc : firstDepConflict? d.requires c.requires with
    | none => rw [hdc] at h; cases h
    | some t =>
      obtain ⟨a, xv, cv⟩ := t
      rw [hdc] at h
      injection h with h
      subst h
      have hreq : reconcile_requires d.requires c.requires true
          = .error (depConflictMsg a xv cv) := by
        unfold reconcile_requires
        rw [overlay_foldlM_scan_error c.requires (loadXmlRequires d.requires) [] a xv cv hdc]
        rfl
      simp only [reconcile_addon,
        checkFields_foldlM_find_none d c checkedFields [] hff, hreq, Bind.bind,
        Except.bind]

/-- `kw` occurs as a contiguous substring of `msg` (via character lists). -/
def containsSub (msg kw : String) : Prop :=
  kw.data <:+: msg.data

instance (msg kw : String) : Decidable (containsSub msg kw) := by
  unfold containsSub
  infer_instance

def dC1 : AddonXmlData := { id := some "A", name := some "N1" }

def cC1 : AddonConfig := { id := "B", name := some "N2" }

/-- Counterexample to C1 as stated: `dC1`/`cC1` conflict on both id and name,
yet strict reconciliation fails with a message that identifies only the id
conflict and never mentions the name field. -/
theorem reconcile_addon_strict_not_batch_cex :
    (fieldConflictB dC1 cC1 "id" = true ∧ fieldConflictB dC1 cC1 "name" = true)
    ∧ reconcile_addon (some dC1) (some cC1) true
        = .error (fieldConflictMsg "id" "A" "B")
    ∧ containsSub (fieldConflictMsg "id" "A" "B") "id"
    ∧ ¬ containsSub (fieldConflictMsg "id" "A" "B") "name" := by
  refine ⟨by decide, ?_, by decide, by decide⟩
  simp [reconcile_addon, dC1, cC1, checkedFields, checkFieldsStep, xmlField,
    cfgField, truthy, Bind.bind, Except.bind]

/-- Witness for C1 (amended): on `dC1`/`cC1` the first conflict is the id
field, and strict reconciliation fails with exactly its message. -/
theorem reconcile_addon_strict_reports_first_conflict_wit :
    firstConflictMsg? dC1 cC1 = some (fieldConflictMsg "id" "A" "B")
    ∧ reconcile_addon (some dC1) (some cC1) true
        = .error (fieldConflictMsg "id" "A" "B") := by
  have hmsg : firstConflictMsg? dC1 cC1 = some (fieldConflictMsg "id" "A" "B") := by
    decide
  exact ⟨hmsg,
    reconcile_addon_strict_reports_first_conflict dC1 cC1 _ hmsg⟩

/-! C9: carry-through of unrecognized extension fragments. -/

/-- An extension fragment survives the `point` filter: its `point` attribute
is present, non-empty and not the metadata point. -/
def keepPoint (e : Elem) : Bool :=
  match e.get "point" with
  | some p => decide (p ≠ "" ∧ p ≠ "xbmc.addon.metadata")
  | none => false

/-- The fragments the merged record is expected to carry: `extension`
children whose `point` is truthy and not `xbmc.addon.metadata`. -/
def keepExt (e : Elem) : Bool :=
  (e.tag == "extension") && keepPoint e

/-- Declarative characterization of the raw-fragment bag: the serializations
of exactly the kept extension children of the root, in document order. -/
def unknownExtSpec (d : AddonXmlData) : String :=
  match d.root with
  | none => ""
  | some root => String.join ((root.children.filter keepExt).map Elem.tostring)

theorem foldl_unknownStep (l : List Elem) :
    ∀ acc : List String,
      l.foldl unknownStep acc = acc ++ (l.filter keepPoint).map Elem.tostring := by
  induction l with
  | nil => intro acc; simp
  | cons e rest ih =>
    intro acc
    simp only [List.foldl_cons]
    cases hp : e.get "point" with
    | none =>
      have hstep : unknownStep acc e = acc := by simp [unknownStep, hp]
      have hkeep : keepPoint e = false := by simp [keepPoint, hp]
      rw [hstep, ih acc, List.filter_cons_of_neg (by simp [hkeep])]
    | some p =>
      by_cases hcond : p ≠ "" ∧ p ≠ "xbmc.addon.metadata"
      · have hstep : unknownStep acc e = acc ++ [e.tostring] := by
          simp [unknownStep, hp, hcond]
        have hkeep : keepPoint e = true := by simp [keepPoint, hp, hcond]
        rw [hstep, ih, List.filter_cons_of_pos (by simp [hkeep])]
        simp
      · have hstep : unknownStep acc e = acc := by simp [unknownStep, hp, hcond]
        have hkeep : keepPoint e = false := by simp [keepPoint, hp, hcond]
        rw [hstep, ih acc, List.filter_cons_of_neg (by simp [hkeep])]

theorem get_unknown_eq_spec (d : AddonXmlData) :
    d.get_unknown_extensions_xml = unknownExtSpec d := by
  cases hroot : d.root with
  | none => simp [AddonXmlData.get_unknown_extensions_xml, unknownExtSpec, hroot]
  | some root =>
    simp only [AddonXmlData.get_unknown_extensions_xml, unknownExtSpec, hroot]
    by_cases hempty : root.children.isEmpty
    · rw [if_pos hempty, List.isEmpty_iff.mp hempty]
      rfl
    · rw [if_neg hempty, foldl_unknownStep, List.nil_append, List.filter_filter]
      have hfeq : root.children.filter (fun a => keepPoint a && (a.tag == "extension"))
          = root.children.filter keepExt :=
        List.filter_congr (fun e _ => by simp [keepExt, Bool.and_comm])
      rw [hfeq]

/-- C9 (amended): with both manifest and config present, the merged
raw-fragment bag is exactly the concatenated serializations of those
`extension` children of the root whose `point` attribute is present, non-empty and not
`xbmc.addon.metadata` — the metadata fragment and any extension lacking a
truthy `point` attribute are dropped, every other fragment is carried
through in document order. -/
theorem reconcile_addon_unknown_extensions_carried
    (d : AddonXmlData) (c : AddonConfig) (strict : Bool)
    (merged : List (String × Value)) (w : List String)
    (h : reconcile_addon (some d) (some c) strict = .ok (merged, w)) :
    merged.lookup "unknown_extensions" = some (.vstr (some (unknownExtSpec d))) := by
  simp only [reconcile_addon] at h
  cases hfw : checkedFields.foldlM (checkFieldsStep d c strict) [] with
  | error e => rw [hfw] at h; simp [Bind.bind, Except.bind] at h
  | ok fw =>
    rw [hfw] at h
    simp only [Bind.bind, Except.bind] at h
    cases hr : reconcile_requires d.requires c.requires strict with
    | error e => rw [hr] at h; simp at h
    | ok pr =>
      rw [hr] at h
      simp only [pure, Except.ok.injEq, Prod.mk.injEq] at h
      obtain ⟨hm, _⟩ := h
      rw [← hm, ← get_unknown_eq_spec]
      simp [List.lookup]

def extMetaC9 : Elem := .elem "extension" [("point", "xbmc.addon.metadata")] none [] none

def extNoPointC9 : Elem := .elem "extension" [] none [] none

def dC9 : AddonXmlData :=
  { root := some (.elem "addon" [] none [extMetaC9, extNoPointC9] none) }

def cC9 : AddonConfig := { id := "mod.a" }

def mC9 : List (String × Value) :=
  [("id", .vstr (some "mod.a")), ("name", .vstr none), ("provider-name", .vstr none),
   ("description", .vstr none), ("summary", .vstr none), ("license", .vstr none),
   ("disclaimer", .vstr none), ("source", .vstr none), ("assets", .vassets []),
   ("requires", .vreqs []), ("news", .vstr (some "")),
   ("unknown_extensions", .vstr (some ""))]

/-- Counterexample to C9 as stated: an extension fragment with no `point`
attribute is not the metadata fragment, serializes to a non-empty string, yet
is dropped — the merged raw-fragment bag is empty. -/
theorem reconcile_addon_pointless_extension_dropped_cex :
    extNoPointC9.tag = "extension"
    ∧ extNoPointC9.get "point" = none
    ∧ Elem.tostring extNoPointC9 = "<extension />"
    ∧ reconcile_addon (some dC9) (some cC9) false = .ok (mC9, [])
    ∧ mC9.lookup "unknown_extensions" = some (.vstr (some "")) := by
  refine ⟨rfl, rfl, ?_, ?_, by simp [mC9, List.lookup]⟩
  · simp [extNoPointC9, Elem.tostring, serializeAttrs]
  · simp [reconcile_addon, dC9, cC9, mC9, extMetaC9, extNoPointC9, checkedFields,
      checkFieldsStep, xmlField, cfgField, truthy, reconcile_requires,
      loadXmlRequires, Bind.bind, Except.bind, pure, Except.pure,
      AddonXmlData.get_unknown_extensions_xml, unknownStep, Elem.get, Elem.tag,
      Elem.children, Elem.attrs, List.find?, String.join]

def extPyC9 : Elem :=
  .elem "extension" [("point", "xbmc.python.module"), ("library", "lib")] none [] none

def dC9w : AddonXmlData :=
  { root := some (.elem "addon" [] none [extMetaC9, extPyC9] none) }

/-- Witness for C9 (amended): a non-metadata extension with a truthy `point`
is carried through into the raw-fragment bag of the merged record. -/
theorem reconcile_addon_unknown_extensions_carried_wit :
    ∃ merged w,
      reconcile_addon (some dC9w) (some cC9) false = .ok (merged, w)
      ∧ merged.lookup "unknown_extensions" = some (.vstr (some (unknownExtSpec dC9w)))
      ∧ unknownExtSpec dC9w
          = "<extension point=\x22xbmc.python.module\x22 library=\x22lib\x22 />" := by
  have hspec : unknownExtSpec dC9w
      = "<extension point=\x22xbmc.python.module\x22 library=\x22lib\x22 />" := by
    have hstr : (Elem.elem "extension"
        [("point", "xbmc.python.module"), ("library", "lib")] none [] none).tostring
        = "<extension point=\x22xbmc.python.module\x22 library=\x22lib\x22 />" := by
      simp [Elem.tostring, serializeAttrs]
    simp [unknownExtSpec, dC9w, keepExt, keepPoint, Elem.get, Elem.tag,
      Elem.attrs, Elem.children, List.find?, extMetaC9, extPyC9, hstr, String.join]
  have hrun : reconcile_addon (some dC9w) (some cC9) false
      = .ok ([("id", .vstr (some "mod.a")), ("name", .vstr none),
              ("provider-name", .vstr none), ("description", .vstr none),
              ("summary", .vstr none), ("license", .vstr none),
              ("disclaimer", .vstr none), ("source", .vstr none),
              ("assets", .vassets []), ("requires", .vreqs []),
              ("news", .vstr (some "")),
              ("unknown_extensions",
                .vstr (some dC9w.get_unknown_extensions_xml))], []) := by
    simp only [reconcile_addon, Bind.bind, Except.bind]
    rw [show checkedFields.foldlM (checkFieldsStep dC9w cC9 false) [] = .ok [] from by
      simp [checkedFields, checkFieldsStep, xmlField, cfgField, truthy, dC9w, cC9,
        Bind.bind, Except.bind, pure, Except.pure]]
    rw [show reconcile_requires dC9w.requires cC9.requires false = .ok ([], []) from by
      simp [reconcile_requires, loadXmlRequires, dC9w, cC9, Bind.bind, Except.bind,
        pure, Except.pure]]
    simp [dC9w, cC9, truthy]
  exact ⟨_, _, hrun,
    reconcile_addon_unknown_extensions_carried dC9w cC9 false _ _ hrun, hspec⟩

/-! Embedding of `src/arranger/run.py`: configuration validation and
`build_mappings`.  Python string tests (`in`, `endswith`, `rstrip`) are
embedded over the underlying character lists. -/

def DEFAULT_TEMPLATES_DIR : String := "templates"

def DEFAULT_CHANGELOG_DEST : String := "universal/CHANGELOG.md.j2"

def DEFAULT_KODI_ADDON_DEST : String := "kodi-addons/addon.xml.j2"

/-- The mode flags of the parsed command line. -/
structure ArrangerArgs where
  pypi : Bool := false
  kodi_addon : Bool := false
  changelog_only : Bool := false

/-- The `[tool.arranger]` configuration dictionary.  The key-type checks of
`_validate_config_types` are unrepresentable here because every field already
carries the expected type. -/
structure ArrangerConfig where
  templates_dir : Option String := none
  use_default_pypi_structure : Bool := false
  use_default_kodi_addon_structure : Bool := false
  kodi_project_name : Option String := none
  source_mappings : List (String × String) := []

/-- Python `s.rstrip("/")`. -/
def pyRstripSlash (s : String) : String :=
  String.mk ((s.data.reverse.dropWhile (fun ch => ch = '/')).reverse)

/-- Python `"/" in s`. -/
def hasSlash (s : String) : Bool :=
  s.data.contains '/'

/-- Python `"\x5c" in s` (backslash containment). -/
def hasBackslash (s : String) : Bool :=
  s.data.contains '\\'

/-- Python `s.endswith("/")`. -/
def endsWithSlash (s : String) : Bool :=
  match s.data.reverse with
  | [] => false
  | ch :: _ => ch = '/'

/-- The `templates-dir` checks of `_validate_config_values`. -/
def validateTemplatesDir (c : ArrangerConfig) : Except String Unit :=
  match c.templates_dir with
  | some td =>
    if td = "" then
      .error "Configuration error: \x27templates-dir\x27 cannot be an empty string."
    else if hasSlash td = true ∨ hasBackslash td = true then
      .error ("Configuration error: \x27templates-dir\x27 should be a simple directory name, not a path: \x27"
        ++ td ++ "\x27\nUse \x27templates-dir = \x22mytemplates\x22\x27 instead of \x27templates-dir = \x22path/to/mytemplates\x22\x27")
    else .ok ()
  | none => .ok ()

/-- The `kodi-project-name` check of `_validate_config_values`. -/
def validateKodiName (c : ArrangerConfig) : Except String Unit :=
  match c.kodi_project_name with
  | some kn =>
    if kn = "" then
      .error "Configuration error: \x27kodi-project-name\x27 cannot be an empty string."
    else .ok ()
  | none => .ok ()

/-- `_validate_config`: type checks are vacuous in the typed embedding; the
value checks run in source order (the `source-mappings` entry-type checks are
likewise unrepresentable). -/
def validateConfig (c : ArrangerConfig) : Except String Unit := do
  validateTemplatesDir c
  validateKodiName c

/-- `sum([args.pypi, args.kodi_addon, args.changelog_only])`. -/
def flagCount (a : ArrangerArgs) : Nat :=
  (if a.pypi then 1 else 0) + (if a.kodi_addon then 1 else 0)
    + (if a.changelog_only then 1 else 0)

/-- `_validate_flag_exclusivity`. -/
def validateFlagExclusivity (a : ArrangerArgs) : Except String Unit :=
  if flagCount a > 1 then
    .error "Flags --pypi, --kodi-addon, and --changelog-only are mutually exclusive.\nPlease specify only one of these flags."
  else .ok ()

/-- `_set_default_flag`: default to `--changelog-only` when no flag is set. -/
def setDefaultFlag (a : ArrangerArgs) : ArrangerArgs :=
  if flagCount a = 0 then { a with changelog_only := true } else a

/-- `_build_default_mappings`: default template mappings (keyed by template
path) for the selected mode, and the reserved set — the keys of those
default mappings.  The PyPI branch contributes nothing (a TODO in the
source); the changelog mapping is always included. -/
def buildDefaultMappings (c : ArrangerConfig) (a : ArrangerArgs) :
    List (String × String) × List String :=
  let templates_dir := c.templates_dir.getD DEFAULT_TEMPLATES_DIR
  let mappings : List (String × String) := []
  let mappings :=
    if a.kodi_addon || c.use_default_kodi_addon_structure then
      match c.kodi_project_name with
      | some kn =>
        if kn ≠ "" then
          dictSet mappings (templates_dir ++ "/" ++ kn ++ "/addon.xml.j2")
            DEFAULT_KODI_ADDON_DEST
        else
          dictSet mappings (templates_dir ++ "/addon.xml.j2") DEFAULT_KODI_ADDON_DEST
      | none =>
        dictSet mappings (templates_dir ++ "/addon.xml.j2") DEFAULT_KODI_ADDON_DEST
    else mappings
  let mappings := dictSet mappings (templates_dir ++ "/CHANGELOG.md.j2")
    DEFAULT_CHANGELOG_DEST
  (mappings, mappings.map Prod.fst)

def destFmtMsg (dest : String) : String :=
  "Invalid destination path format: \x27" ++ dest
    ++ "\x27\nDestination paths should be file paths with at least one directory level (e.g., \x27dir/file.txt\x27)"

def destDirMsg (dest : String) : String :=
  "Destination path cannot be a directory: \x27" ++ dest
    ++ "\x27\nPlease specify a full file path."

def tmplFmtMsg (tp : String) : String :=
  "Invalid template path format: \x27" ++ tp
    ++ "\x27\nTemplate paths should reference specific files, not directories."

def reservedMsg (dest : String) : String :=
  "Cannot override default mapping for \x27" ++ dest
    ++ "\x27\nDefault mappings are reserved for framework templates. Please choose a different destination path."

/-- One iteration of the `_validate_custom_mappings` loop over a
`(destination, template_path)` entry. -/
def validateEntry (reserved : List String) (p : String × String) :
    Except String Unit :=
  if p.1 = "" ∨ hasSlash (pyRstripSlash p.1) = false then .error (destFmtMsg p.1)
  else if endsWithSlash p.1 = true then .error (destDirMsg p.1)
  else if p.2 = "" ∨ endsWithSlash p.2 = true then .error (tmplFmtMsg p.2)
  else if reserved.contains p.1 then .error (reservedMsg p.1)
  else .ok ()

/-- `_validate_custom_mappings`: validate each override entry in declaration
order, failing on the first invalid one. -/
def validateCustomMappings (sm : List (String × String)) (reserved : List String) :
    Except String Unit :=
  sm.foldlM (fun _ p => validateEntry reserved p) ()

/-- `build_mappings` from `src/arranger/run.py`. -/
def build_mappings (c : ArrangerConfig) (a : ArrangerArgs) :
    Except String (List (String × String)) := do
  validateConfig c
  validateFlagExclusivity a
  let a := setDefaultFlag a
  let dm := buildDefaultMappings c a
  validateCustomMappings c.source_mappings dm.2
  .ok (c.source_mappings.foldl (fun m p => dictSet m p.1 p.2) dm.1)

/-! C7 and C8: validation of override mappings. -/

/-- An override entry that passes all the per-entry format checks. -/
def fmtOk (p : String × String) : Prop :=
  p.1 ≠ "" ∧ hasSlash (pyRstripSlash p.1) = true ∧ endsWithSlash p.1 ≠ true
    ∧ p.2 ≠ "" ∧ endsWithSlash p.2 ≠ true

theorem validateEntry_ok_of_fmtOk {reserved : List String} {p : String × String}
    (hf : fmtOk p) (hc : reserved.contains p.1 = false) :
    validateEntry reserved p = .ok () := by
  obtain ⟨h1, h2, h3, h4, h5⟩ := hf
  unfold validateEntry
  rw [if_neg (by rintro (h | h); exacts [h1 h, by simp [h2] at h]),
    if_neg h3, if_neg (by rintro (h | h); exacts [h4 h, h5 h]),
    if_neg (by simpa using hc)]

theorem validateEntry_reserved_error {reserved : List String} {p : String × String}
    (hf : fmtOk p) (hc : reserved.contains p.1 = true) :
    validateEntry reserved p = .error (reservedMsg p.1) := by
  obtain ⟨h1, h2, h3, h4, h5⟩ := hf
  unfold validateEntry
  rw [if_neg (by rintro (h | h); exacts [h1 h, by simp [h2] at h]),
    if_neg h3, if_neg (by rintro (h | h); exacts [h4 h, h5 h]),
    if_pos (by simpa using hc)]

theorem validateCustomMappings_first_collision (reserved : List String) :
    ∀ (sm : List (String × String)) (q : String × String),
      (∀ p ∈ sm, fmtOk p) →
      sm.find? (fun p => reserved.contains p.1) = some q →
      validateCustomMappings sm reserved = .error (reservedMsg q.1) := by
  intro sm
  induction sm with
  | nil => intro q _ h; cases h
  | cons p rest ih =>
    intro q hfmt h
    by_cases hc : reserved.contains p.1 = true
    · rw [List.find?_cons_of_pos _ (by simpa using hc)] at h
      injection h with h
      subst h
      simp only [validateCustomMappings, List.foldlM_cons,
        validateEntry_reserved_error (hfmt p (List.mem_cons_self _ _)) hc,
        Bind.bind, Except.bind]
    · rw [List.find?_cons_of_neg _ (by simpa using hc)] at h
      simp only [validateCustomMappings, List.foldlM_cons,
        validateEntry_ok_of_fmtOk (hfmt p (List.mem_cons_self _ _)) (by simpa using hc),
        Bind.bind, Except.bind]
      exact ih q (fun r hr => hfmt r (List.mem_cons_of_mem p hr)) h

/-- C7: under an otherwise valid configuration whose override entries are all
well-formed, an override destination equal to a reserved destination (a key
of the default mappings of the selected mode) makes `build_mappings` fail with the
configuration error naming that destination — the first such collision is
reported and no mapping table is produced. -/
theorem build_mappings_reserved_collision_fails
    (c : ArrangerConfig) (a : ArrangerArgs) (q : String × String)
    (hvc : validateConfig c = .ok ())
    (hfl : validateFlagExclusivity a = .ok ())
    (hfmt : ∀ p ∈ c.source_mappings, fmtOk p)
    (hq : c.source_mappings.find?
        (fun p => (buildDefaultMappings c (setDefaultFlag a)).2.contains p.1)
        = some q) :
    build_mappings c a = .error (reservedMsg q.1)
    ∧ reservedMsg q.1 = "Cannot override default mapping for \x27" ++ q.1
        ++ "\x27\nDefault mappings are reserved for framework templates. Please choose a different destination path." := by
  refine ⟨?_, rfl⟩
  simp only [build_mappings, hvc, hfl,
    validateCustomMappings_first_collision _ c.source_mappings q hfmt hq,
    Bind.bind, Except.bind]

/-- Witness for C7 at the example from the spec: under the default mode the
changelog default template path `templates/CHANGELOG.md.j2` is reserved, and
an override entry using it as destination is rejected with an error naming
it. -/
theorem build_mappings_reserved_collision_fails_wit :
    build_mappings { source_mappings := [("templates/CHANGELOG.md.j2", "x.j2")] } {}
      = .error (reservedMsg "templates/CHANGELOG.md.j2") := by
  have h := build_mappings_reserved_collision_fails
    { source_mappings := [("templates/CHANGELOG.md.j2", "x.j2")] } {}
    ("templates/CHANGELOG.md.j2", "x.j2") rfl rfl
    (by rintro p hp; rw [List.mem_singleton.mp hp]; refine ⟨?_, ?_, ?_, ?_, ?_⟩ <;> decide)
    (by rfl)
  exact h.1

/-- An override destination the claim C8 rejects: no path separator at all,
or a trailing path separator. -/
def badDest (p : String × String) : Prop :=
  hasSlash p.1 = false ∨ endsWithSlash p.1 = true

theorem hasSlash_of_rstrip {s : String} (h : hasSlash (pyRstripSlash s) = true) :
    hasSlash s = true := by
  simp only [hasSlash, pyRstripSlash, List.contains, List.elem_eq_mem,
    decide_eq_true_eq] at *
  rw [List.mem_reverse] at h
  exact List.mem_reverse.mp
    (List.Sublist.mem h (List.dropWhile_sublist (fun ch => decide (ch = '/'))))

theorem not_badDest_of_validateEntry_ok {reserved : List String}
    {p : String × String} (h : validateEntry reserved p = .ok ()) : ¬ badDest p := by
  unfold validateEntry at h
  split_ifs at h with h1 h2
  rintro (hb | hb)
  · have hrs : hasSlash (pyRstripSlash p.1) = true := by
      rcases not_or.mp h1 with ⟨_, hh⟩
      simpa using hh
    rw [hasSlash_of_rstrip hrs] at hb
    cases hb
  · exact h2 hb

theorem validateCustomMappings_error_of_bad (reserved : List String) :
    ∀ sm : List (String × String), (∃ p ∈ sm, badDest p) →
      ∃ e, validateCustomMappings sm reserved = .error e := by
  intro sm
  induction sm with
  | nil => rintro ⟨p, hp, _⟩; cases hp
  | cons p rest ih =>
    rintro ⟨q, hq, hbad⟩
    cases hval : validateEntry reserved p with
    | error e =>
      exact ⟨e, by simp only [validateCustomMappings, List.foldlM_cons, hval,
        Bind.bind, Except.bind]⟩
    | ok u =>
      cases u
      rcases List.mem_cons.mp hq with rfl | hq
      · exact absurd hbad (not_badDest_of_validateEntry_ok hval)
      · obtain ⟨e, he⟩ := ih ⟨q, hq, hbad⟩
        exact ⟨e, by simp only [validateCustomMappings, List.foldlM_cons, hval,
          Bind.bind, Except.bind] at he ⊢; exact he⟩

/-- C8: whenever the destination of some override entry contains no path separator
or ends in one, `build_mappings` fails with a configuration error — no
mapping table is returned, so such an entry is never added. -/
theorem build_mappings_invalid_dest_fails
    (c : ArrangerConfig) (a : ArrangerArgs)
    (hbad : ∃ p ∈ c.source_mappings, badDest p) :
    ∃ e, build_mappings c a = .error e := by
  cases hvc : validateConfig c with
  | error e => exact ⟨e, by simp only [build_mappings, hvc, Bind.bind, Except.bind]⟩
  | ok u =>
    cases u
    cases hfl : validateFlagExclusivity a with
    | error e =>
      exact ⟨e, by simp only [build_mappings, hvc, hfl, Bind.bind, Except.bind]⟩
    | ok u =>
      cases u
      obtain ⟨e, he⟩ := validateCustomMappings_error_of_bad
        (buildDefaultMappings c (setDefaultFlag a)).2 c.source_mappings hbad
      exact ⟨e, by simp only [build_mappings, hvc, hfl, he, Bind.bind, Except.bind]⟩

/-- Witness for C8 at the two examples from the spec: a bare filename destination
`file.txt` and a directory destination `dir/` each make `build_mappings`
fail. -/
theorem build_mappings_invalid_dest_fails_wit :
    (∃ e, build_mappings { source_mappings := [("file.txt", "x.j2")] } {} = .error e)
    ∧ (∃ e, build_mappings { source_mappings := [("dir/", "x.j2")] } {} = .error e) :=
  ⟨build_mappings_invalid_dest_fails _ {}
      ⟨("file.txt", "x.j2"), List.mem_singleton.mpr rfl, Or.inl (by decide)⟩,
    build_mappings_invalid_dest_fails _ {}
      ⟨("dir/", "x.j2"), List.mem_singleton.mpr rfl, Or.inr (by decide)⟩⟩

end PsrTemplates
